import Mathlib

/-!
Shallow embedding of the transcript-acquisition pipeline in
`src/app/api/transcript/route.ts`, together with theorems settling the
frozen claims about it.

Modelling conventions:
* JavaScript runtime values that flow through the numeric/optional field
  logic are modelled by `JV` (undefined, NaN, number as `Rat`, string).
  Number formatting edge cases (exponent notation) and string-typed
  numeric JSON fields under `+` are outside the model; no claim touches
  them.
* Network effects are passed in as explicit inputs: each fetch function
  receives the decoded upstream responses it would have awaited, and a
  `now : Nat` clock value replaces `Date.now()`.
* Thrown JavaScript exceptions are modelled as `Except.error` values.
-/

/-- A JavaScript value as it occurs in this code path: `undefined`, `NaN`,
a finite number (modelled as a rational), or a string. -/
inductive JV
  | undef
  | nan
  | num (q : Rat)
  | str (s : String)
deriving DecidableEq, Repr, Inhabited

/-- JavaScript truthiness for `JV`: `undefined`, `NaN`, `0` and `""` are
falsy, everything else truthy. -/
def JV.truthy : JV → Bool
  | .undef => false
  | .nan => false
  | .num q => q != 0
  | .str s => s != ""

/-- JavaScript `a || b` on values. -/
def jvOr (a b : JV) : JV :=
  if a.truthy then a else b

/-- Rational addition written through `mkRat` (kernel-computable,
extensionally the standard addition on `Rat`). -/
def ratAdd (a b : Rat) : Rat :=
  mkRat (a.num * b.den + b.num * a.den) (a.den * b.den)

/-- Rational multiplication written through `mkRat`. -/
def ratMul (a b : Rat) : Rat :=
  mkRat (a.num * b.num) (a.den * b.den)

/-- Ceiling of a rational as an integer, via floor division on the
numerator (`⌈q⌉ = -⌊-q⌋`). -/
def ratCeil (q : Rat) : Int :=
  -((-q.num).ediv (q.den : Int))

/-- JavaScript `+` restricted to the numeric shapes that occur in this
code (numbers add; `undefined`/`NaN` operands yield `NaN`; string
operands do not occur in the expressions being modelled). -/
def jvAdd : JV → JV → JV
  | .num a, .num b => .num (ratAdd a b)
  | _, _ => .nan

/-- JavaScript `*` restricted to numeric shapes, as `jvAdd`. -/
def jvMul : JV → JV → JV
  | .num a, .num b => .num (ratMul a b)
  | _, _ => .nan

/-- JavaScript `Math.ceil` on the value shapes reachable here (numbers and `NaN`). -/
def mathCeil : JV → JV
  | .num q => .num (ratCeil q : Int)
  | _ => .nan

/-- Value of a digit list read in base ten. -/
def digitsToNat (ds : List Char) : Nat :=
  ds.foldl (fun a c => a * 10 + (c.toNat - 48)) 0

/-- JavaScript `parseFloat` on a string, for plain decimal numerals
(optional sign, digits, optional fraction part; no exponent — none of
the payloads in scope use one): `NaN` when no digits are found, and
parsing stops at the first character that cannot extend the numeral. -/
def jsParseFloat (s : String) : JV :=
  let cs := s.toList
  let signed : Int × List Char :=
    match cs with
    | '-' :: t => (-1, t)
    | '+' :: t => (1, t)
    | _ => (1, cs)
  let intPart := signed.2.takeWhile Char.isDigit
  let rest := signed.2.dropWhile Char.isDigit
  match rest with
  | '.' :: t =>
    let fracPart := t.takeWhile Char.isDigit
    if intPart.isEmpty && fracPart.isEmpty then .nan
    else .num (mkRat (signed.1 * (digitsToNat intPart * 10 ^ fracPart.length + digitsToNat fracPart))
      (10 ^ fracPart.length))
  | _ =>
    if intPart.isEmpty then .nan
    else .num (mkRat (signed.1 * digitsToNat intPart) 1)

/-- JavaScript `parseInt` (radix 10) on a string: leading digits after an
optional sign, `NaN` when there are none. -/
def jsParseInt (s : String) : JV :=
  let cs := s.toList
  let signed : Int × List Char :=
    match cs with
    | '-' :: t => (-1, t)
    | '+' :: t => (1, t)
    | _ => (1, cs)
  let intPart := signed.2.takeWhile Char.isDigit
  if intPart.isEmpty then .nan
  else .num (mkRat (signed.1 * digitsToNat intPart) 1)

/-- JavaScript `parseFloat` applied to an arbitrary value: a number
round-trips through its decimal printing (identity for the finite
numbers in scope), a string is parsed, `undefined` and `NaN` give `NaN`. -/
def jsParseFloatJV : JV → JV
  | .num q => .num q
  | .str s => jsParseFloat s
  | .undef => .nan
  | .nan => .nan

/-- JavaScript `a || b` where `a` is an optional string (absent or empty
strings fall through to the default). -/
def orElseStr (a : Option String) (b : String) : String :=
  match a with
  | some s => if s = "" then b else s
  | none => b

/-- Strip a literal character list from the front of a list, `none` when
it is not a prefix there. -/
def dropLit : List Char → List Char → Option (List Char)
  | [], cs => some cs
  | _ :: _, [] => none
  | x :: xs, c :: cs => if c = x then dropLit xs cs else none

/-- Splitting on a non-empty literal separator, leftmost-first and
non-overlapping (the common semantics of JavaScript `split` and Lean
`String.splitOn`). `fuel` bounds the steps; every step consumes at
least one character, so the input length plus one always suffices. -/
def splitLitAux (sep : List Char) (fuel : Nat) (cs acc : List Char) : List (List Char) :=
  match fuel with
  | 0 => [acc.reverse]
  | fuel' + 1 =>
    match dropLit sep cs with
    | some rest => acc.reverse :: splitLitAux sep fuel' rest []
    | none =>
      match cs with
      | [] => [acc.reverse]
      | c :: cs' => splitLitAux sep fuel' cs' (c :: acc)

/-- JavaScript `String.prototype.split` with a non-empty string
separator. -/
def strSplitOn (s sep : String) : List String :=
  if sep.toList.isEmpty then [s]
  else (splitLitAux sep.toList (s.toList.length + 1) s.toList []).map String.mk

/-- Whitespace for `trim` purposes (the ASCII whitespace occurring in
the payloads in scope). -/
def isSpaceChar (c : Char) : Bool :=
  c = ' ' || c = '\t' || c = '\n' || c = '\r'

/-- JavaScript `String.prototype.trim`: strip whitespace from both
ends. -/
def strTrim (s : String) : String :=
  String.mk (((s.toList.dropWhile isSpaceChar).reverse.dropWhile isSpaceChar).reverse)

/-- Global replacement of a non-empty literal pattern, leftmost-first,
non-overlapping, not rescanning the replacement (the semantics of the
`/g`-regex `replace` calls over literal patterns in the source). -/
def replaceAllAux (pat rep : List Char) (fuel : Nat) (cs : List Char) : List Char :=
  match fuel with
  | 0 => cs
  | fuel' + 1 =>
    match dropLit pat cs with
    | some rest => rep ++ replaceAllAux pat rep fuel' rest
    | none =>
      match cs with
      | [] => []
      | c :: cs' => c :: replaceAllAux pat rep fuel' cs'

/-- String-level wrapper for `replaceAllAux`. -/
def strReplaceAll (s pat rep : String) : String :=
  if pat.toList.isEmpty then s
  else String.mk (replaceAllAux pat.toList rep.toList (s.toList.length + 1) s.toList)

/-- JavaScript `String.prototype.replace` with a plain-string pattern:
replaces only the first occurrence. -/
def replaceFirstAux (pat rep : List Char) : List Char → List Char
  | [] => []
  | c :: cs =>
    match dropLit pat (c :: cs) with
    | some rest => rep ++ rest
    | none => c :: replaceFirstAux pat rep cs

/-- String-level wrapper for `replaceFirstAux`. -/
def jsReplaceFirst (s pat rep : String) : String :=
  String.mk (replaceFirstAux pat.toList rep.toList s.toList)

/-- Does the literal occur anywhere in the list? -/
def containsLitAux (pat : List Char) : List Char → Bool
  | [] => (dropLit pat []).isSome
  | c :: cs => (dropLit pat (c :: cs)).isSome || containsLitAux pat cs

/-- JavaScript `String.prototype.includes`. -/
def strIncludes (s pat : String) : Bool :=
  containsLitAux pat.toList s.toList

/-- JavaScript `String.prototype.startsWith`. -/
def strStartsWith (s pat : String) : Bool :=
  (dropLit pat.toList s.toList).isSome

/-- One canonical transcript segment as built by the parsers and
normalizers (source field `end` is spelled `end_`). -/
structure Segment where
  id : String
  start : JV
  end_ : JV
  text : JV
deriving DecidableEq, Repr, Inhabited

/-- The canonical transcript object returned by every strategy. -/
structure Transcript where
  id : String
  videoId : String
  title : String
  duration : JV
  language : String
  segments : List Segment
  createdAt : Nat
  updatedAt : Nat
deriving DecidableEq, Repr, Inhabited

/-- The character class `[^X]` of the capture groups, as a Boolean
predicate. -/
def notStop (stopChar ch : Char) : Bool :=
  ch != stopChar

/-- Left-to-right scan of the unanchored patterns in `extractVideoId`:
at each position try to match the literal part and then capture a
non-empty run of characters other than `stopChar` (the `([^X]+)` group);
a position where the capture would be empty is skipped, as the regex
engine does. -/
def scanCapture (stopChar : Char) (lit : List Char) : List Char → Option String
  | [] => none
  | c :: cs =>
    match dropLit lit (c :: cs) with
    | some rest =>
      let cap := rest.takeWhile (notStop stopChar)
      if cap.isEmpty then scanCapture stopChar lit cs else some (String.mk cap)
    | none => scanCapture stopChar lit cs

/-- Function `extractVideoId` from `route.ts`: the four URL patterns tried in
order; the watch pattern captures `[^&]+` after `youtube.com/watch?v=`,
the short-link, embed and legacy patterns capture `[^?]+` after their
literals (the optional scheme and `www.` groups make each pattern
equivalent to finding its literal part as a substring). -/
def extractVideoId (url : String) : Option String :=
  let cs := url.toList
  match scanCapture '&' "youtube.com/watch?v=".toList cs with
  | some v => some v
  | none =>
    match scanCapture '?' "youtu.be/".toList cs with
    | some v => some v
    | none =>
      match scanCapture '?' "youtube.com/embed/".toList cs with
      | some v => some v
      | none =>
        match scanCapture '?' "youtube.com/v/".toList cs with
        | some v => some v
        | none => none

/-- Function `parseVTTTime` from `route.ts`: `hh:mm:ss.mmm` or `mm:ss.mmm`,
anything else maps to 0. -/
def parseVTTTime (timeStr : String) : JV :=
  let parts := strSplitOn timeStr ":"
  if parts.length = 3 then
    jvAdd (jvAdd (jvMul (jsParseInt (parts.get! 0)) (.num 3600))
                 (jvMul (jsParseInt (parts.get! 1)) (.num 60)))
          (jsParseFloat (parts.get! 2))
  else if parts.length = 2 then
    jvAdd (jvMul (jsParseInt (parts.get! 0)) (.num 60)) (jsParseFloat (parts.get! 1))
  else
    .num 0

/-- Main loop of `parseVTT`: on a timing line, split on `-->`, consume
the following non-blank lines as the cue text, and emit a segment only
when the accumulated text trims to something non-empty; the line after
the cue (the blank terminator) is skipped by the outer `i++`. `fuel`
bounds the number of loop iterations; every iteration consumes at least
one line, so `lines.length + 1` is always sufficient. -/
def parseVTTLoop (fuel : Nat) (lines : List String) (index : Nat) : List Segment :=
  match fuel with
  | 0 => []
  | fuel' + 1 =>
    match lines with
    | [] => []
    | line :: rest =>
      if strIncludes line "-->" then
        let parts := (strSplitOn line "-->").map strTrim
        let start := parseVTTTime (parts.get! 0)
        let end_ := parseVTTTime (parts.get! 1)
        let textLines := rest.takeWhile (fun l => strTrim l ≠ "")
        let rest2 := rest.drop textLines.length
        let text := textLines.foldl (fun acc l => acc ++ strTrim l ++ " ") ""
        if strTrim text ≠ "" then
          { id := toString index, start := start, end_ := end_, text := .str (strTrim text) } ::
            parseVTTLoop fuel' (rest2.drop 1) (index + 1)
        else
          parseVTTLoop fuel' (rest2.drop 1) index
      else
        parseVTTLoop fuel' rest index

/-- Function `parseVTT` from `route.ts`: split into lines, skip everything before
the first line containing `-->`, then run the cue loop with 1-based ids. -/
def parseVTT (vttText : String) : List Segment :=
  let lines := strSplitOn vttText "\n"
  let body := lines.dropWhile (fun l => !strIncludes l "-->")
  parseVTTLoop (body.length + 1) body 1

/-- One attempt of the XML text-node regex
`<text start="([^"]+)" dur="([^"]+)"[^>]*>([^<]+)<\/text>` at the head
of the character list: returns the two attribute captures, the text
capture and the remainder after the whole match. Greediness of the
negated classes is equivalent to take-until-delimiter here, so the
match is deterministic. -/
def tryMatchText (cs : List Char) : Option (String × String × String × List Char) :=
  match dropLit "<text start=\"".toList cs with
  | none => none
  | some r1 =>
    let startAttr := r1.takeWhile (fun c => c ≠ '"')
    if startAttr.isEmpty then none else
    match dropLit ('"' :: " dur=\"".toList) (r1.drop startAttr.length) with
    | none => none
    | some r2 =>
      let durAttr := r2.takeWhile (fun c => c ≠ '"')
      if durAttr.isEmpty then none else
      match r2.drop durAttr.length with
      | '"' :: r3 =>
        let skipped := r3.takeWhile (fun c => c ≠ '>')
        match r3.drop skipped.length with
        | '>' :: r4 =>
          let content := r4.takeWhile (fun c => c ≠ '<')
          if content.isEmpty then none else
          match dropLit "</text>".toList (r4.drop content.length) with
          | none => none
          | some r5 => some (String.mk startAttr, String.mk durAttr, String.mk content, r5)
        | _ => none
      | _ => none

/-- Entity unescaping and newline flattening applied to an XML text
capture, in the source's replacement order, followed by `trim`. -/
def decodeXMLText (raw : String) : String :=
  strTrim (strReplaceAll (strReplaceAll (strReplaceAll (strReplaceAll (strReplaceAll
    (strReplaceAll raw "&amp;" "&") "&lt;" "<") "&gt;" ">") "&quot;" "\"") "&#39;" "'") "\n" " ")

/-- Segment built for one XML regex match (`end = start + dur`). -/
def xmlSegment (index : Nat) (startAttr durAttr content : String) : Segment :=
  let start := jsParseFloat startAttr
  let duration := jsParseFloat durAttr
  { id := toString index, start := start, end_ := jvAdd start duration,
    text := .str (decodeXMLText content) }

/-- The global-regex `exec` loop over the XML payload: try a match at
every position left to right, emitting a segment and resuming after the
match on success, advancing one character on failure. `fuel` bounds the
number of steps; each step consumes at least one character, so
`cs.length + 1` is always sufficient. -/
def parseXMLScan (fuel : Nat) (cs : List Char) (index : Nat) : List Segment :=
  match fuel with
  | 0 => []
  | fuel' + 1 =>
    match cs with
    | [] => []
    | _ :: tail =>
      match tryMatchText cs with
      | some (sAttr, dAttr, content, rest) =>
        xmlSegment index sAttr dAttr content :: parseXMLScan fuel' rest (index + 1)
      | none => parseXMLScan fuel' tail index

/-- Function `parseTranscriptXML` from `route.ts`: every regex match becomes a
segment, with 1-based ids in match order; there is no empty-after-trim
filter on this path. -/
def parseTranscriptXML (xmlText : String) : List Segment :=
  parseXMLScan (xmlText.toList.length + 1) xmlText.toList 1

/-- One caption track from the scraped `captionTracks` JSON blob. The
`kind` field is present in the payload (`"asr"` marks an auto-generated
track) but is never read by the selection code. -/
structure CaptionTrack where
  languageCode : Option String
  baseUrl : Option String
  kind : Option String
deriving DecidableEq, Repr, Inhabited

/-- The predicate of the `find` callback in `fetchViaDirectScraping`:
exact language-code equality or an optional-chained `startsWith`. -/
def trackMatches (languageCode : String) (track : CaptionTrack) : Bool :=
  track.languageCode = some languageCode ||
    (match track.languageCode with
     | some s => strStartsWith s languageCode
     | none => false)

/-- Track selection of `fetchViaDirectScraping` (lines 207–216): start
from `captionTracks[0]`, replace it with the first language match when a
preference was supplied and a match exists. -/
def selectCaptionTrack (captionTracks : List CaptionTrack) (languageCode : Option String) :
    CaptionTrack :=
  match languageCode with
  | none => captionTracks.headI
  | some lc =>
    match captionTracks.find? (trackMatches lc) with
    | some matchingTrack => matchingTrack
    | none => captionTracks.headI

/-- Function `fetchViaDirectScraping` from `route.ts`, with its network effects
as inputs: `captionTracksFound` is the parsed result of the page-content
regex search (`none` when neither pattern matched), `pageTitleMatch` the
capture of the title regexes, and `fetchCaption` the body returned for
the selected track's `baseUrl`. -/
def fetchViaDirectScraping (videoId : String) (languageCode : Option String) (now : Nat)
    (captionTracksFound : Option (List CaptionTrack)) (pageTitleMatch : Option String)
    (fetchCaption : String → String) : Except String Transcript :=
  match captionTracksFound with
  | none => .error "Caption tracks not found"
  | some captionTracks =>
    if captionTracks.length = 0 then .error "No captions available" else
    let selectedTrack := selectCaptionTrack captionTracks languageCode
    match selectedTrack.baseUrl with
    | none => .error "Caption URL not found"
    | some captionUrl =>
      let xmlText := fetchCaption captionUrl
      let segments := parseTranscriptXML xmlText
      if segments.length = 0 then .error "Failed to parse caption data" else
      let title :=
        match pageTitleMatch with
        | some t => jsReplaceFirst t " - YouTube" ""
        | none => "Video " ++ videoId
      let duration :=
        match segments.getLast? with
        | some lastSegment => mathCeil lastSegment.end_
        | none => .num 0
      .ok { id := "transcript_" ++ videoId ++ "_" ++ toString now, videoId := videoId,
            title := title, duration := duration,
            language := orElseStr selectedTrack.languageCode (orElseStr languageCode "auto"),
            segments := segments, createdAt := now, updatedAt := now }

/-- One subtitle descriptor from the piped-API response. `autoGenerated`
is present in the upstream payload but never read by the selection code. -/
structure PipedSub where
  code : Option String
  url : String
  autoGenerated : Bool
deriving DecidableEq, Repr, Inhabited

/-- The decoded piped-API response body. -/
structure PipedData where
  subtitles : Option (List PipedSub)
  title : Option String
  duration : JV
deriving DecidableEq, Repr, Inhabited

/-- The predicate of the `find` callback in `fetchViaCustomAPI`. -/
def subMatches (languageCode : String) (sub : PipedSub) : Bool :=
  sub.code = some languageCode ||
    (match sub.code with
     | some s => strStartsWith s languageCode
     | none => false)

/-- Subtitle selection of `fetchViaCustomAPI` (lines 81–89). -/
def selectSubtitle (subtitles : List PipedSub) (languageCode : Option String) : PipedSub :=
  match languageCode with
  | none => subtitles.headI
  | some lc =>
    match subtitles.find? (subMatches lc) with
    | some matching => matching
    | none => subtitles.headI

/-- Function `fetchViaCustomAPI` from `route.ts`, network effects as inputs:
`responseOk` is the HTTP success flag of the API call, `data` its
decoded JSON body, `fetchSub` the body returned for the selected
subtitle's URL. -/
def fetchViaCustomAPI (videoId : String) (languageCode : Option String) (now : Nat)
    (responseOk : Bool) (data : PipedData) (fetchSub : String → String) :
    Except String Transcript :=
  if !responseOk then .error "API responded with status" else
  let subtitles := data.subtitles.getD []
  if subtitles.length = 0 then .error "No subtitles available" else
  let selectedSubtitle := selectSubtitle subtitles languageCode
  let subtitleText := fetchSub selectedSubtitle.url
  let segments := parseVTT subtitleText
  if segments.length = 0 then .error "Failed to parse subtitles" else
  .ok { id := "transcript_" ++ videoId ++ "_" ++ toString now, videoId := videoId,
        title := orElseStr data.title ("Video " ++ videoId),
        duration := jvOr data.duration (.num 0),
        language := orElseStr selectedSubtitle.code (orElseStr languageCode "auto"),
        segments := segments, createdAt := now, updatedAt := now }

/-- The Japanese segment list of `generateSampleTranscript` from
`route.ts` (the fixed development placeholder). -/
def sampleSegmentsJa : List Segment :=
  [ { id := "1", start := .num 0, end_ := .num 3,
      text := .str "【開発モード】これはサンプルの字幕データです。" },
    { id := "2", start := .num 3, end_ := .num 7,
      text := .str "実際のYouTube動画から字幕を取得するには、" },
    { id := "3", start := .num 7, end_ := .num 10,
      text := .str "有効なAPIキーまたはプロキシサービスが必要です。" },
    { id := "4", start := .num 10, end_ := .num 14,
      text := .str "字幕が有効になっている動画のURLを入力してください。" },
    { id := "5", start := .num 14, end_ := .num 17,
      text := .str "タイムスタンプ付きでコピーすることも可能です。" } ]

/-- The English segment list of `generateSampleTranscript`. -/
def sampleSegmentsEn : List Segment :=
  [ { id := "1", start := .num 0, end_ := .num 3,
      text := .str "[DEV MODE] This is sample subtitle data." },
    { id := "2", start := .num 3, end_ := .num 7,
      text := .str "To fetch real YouTube subtitles," },
    { id := "3", start := .num 7, end_ := .num 10,
      text := .str "a valid API key or proxy service is required." },
    { id := "4", start := .num 10, end_ := .num 14,
      text := .str "Please enter a URL for a video with subtitles enabled." },
    { id := "5", start := .num 14, end_ := .num 17,
      text := .str "You can also copy with timestamps." } ]

/-- Function `generateSampleTranscript` from `route.ts`: the fixed development
placeholder, Japanese by default and English for any other non-empty
language preference; five segments, duration 17. -/
def generateSampleTranscript (now : Nat) (videoId : String) (languageCode : Option String) :
    Transcript :=
  let isJapanese :=
    (match languageCode with
     | none => true
     | some s => s = "") || languageCode = some "ja"
  let segments : List Segment := if isJapanese then sampleSegmentsJa else sampleSegmentsEn
  { id := "transcript_" ++ videoId ++ "_" ++ toString now, videoId := videoId,
    title := "[開発モード] サンプル動画 " ++ videoId, duration := .num 17,
    language := orElseStr languageCode "ja",
    segments := segments, createdAt := now, updatedAt := now }

/-- One record of a proxy-service JSON payload; absent fields are
`JV.undef`. -/
structure ProxyItem where
  start : JV
  offset : JV
  duration : JV
  dur : JV
  end_ : JV
  text : JV
  content : JV
deriving DecidableEq, Repr, Inhabited

/-- The decoded body of one proxy service's response: either a bare
array of event records, or an object carrying a `transcript` or
`segments` array and possibly a `title`. -/
inductive ProxyData
  | arr (items : List ProxyItem)
  | obj (transcript : Option (List ProxyItem)) (segments : Option (List ProxyItem))
      (title : Option String)
deriving DecidableEq, Repr, Inhabited

/-- Field normalization shared verbatim by the array-of-events and the
`transcript`-field branches:
`start: parseFloat(item.start || item.offset || 0)`,
`end: parseFloat(item.end || ((item.start || item.offset || 0) + (item.duration || item.dur || 0)))`,
`text: item.text || item.content || ''`. -/
def normalizeItem (item : ProxyItem) (index : Nat) : Segment :=
  { id := toString (index + 1),
    start := jsParseFloatJV (jvOr (jvOr item.start item.offset) (.num 0)),
    end_ := jsParseFloatJV (jvOr item.end_
      (jvAdd (jvOr (jvOr item.start item.offset) (.num 0))
             (jvOr (jvOr item.duration item.dur) (.num 0)))),
    text := jvOr (jvOr item.text item.content) (.str "") }

/-- Field normalization of the `segments`-field branch:
`start: parseFloat(item.start || 0)`,
`end: parseFloat(item.end || (item.start + (item.duration || 0)))`,
`text: item.text || ''`. -/
def normalizeItemSeg (item : ProxyItem) (index : Nat) : Segment :=
  { id := toString (index + 1),
    start := jsParseFloatJV (jvOr item.start (.num 0)),
    end_ := jsParseFloatJV (jvOr item.end_ (jvAdd item.start (jvOr item.duration (.num 0)))),
    text := jvOr item.text (.str "") }

/-- The adaptive shape detection of `fetchTranscriptViaProxy` (lines
323–351), segment part: the bare array and the `transcript` field use
the shared normalization, the `segments` field uses its own, and a body
matching no shape leaves `segments` empty. -/
def normalizeProxySegments : ProxyData → List Segment
  | .arr items => items.mapIdx (fun i item => normalizeItem item i)
  | .obj transcript segments _ =>
    match transcript with
    | some items => items.mapIdx (fun i item => normalizeItem item i)
    | none =>
      match segments with
      | some items => items.mapIdx (fun i item => normalizeItemSeg item i)
      | none => []

/-- Title part of the same shape detection: object shapes may override
the default `Video <id>` title. -/
def normalizeProxyTitle (videoId : String) : ProxyData → String
  | .arr _ => "Video " ++ videoId
  | .obj _ _ dataTitle => orElseStr dataTitle ("Video " ++ videoId)

/-- The observable outcome of one proxy service's HTTP call: a non-OK
status, a thrown fetch/decode error, or a decoded JSON body. -/
inductive ServiceAttempt
  | httpFail (status : Nat)
  | threw (msg : String)
  | json (data : ProxyData)
deriving DecidableEq, Repr, Inhabited

/-- The service loop of `fetchTranscriptViaProxy`: skip a service on a
non-OK status, a thrown error, or empty normalized segments; otherwise
return the transcript, stamping `duration` with the last segment's `end`
unrounded. -/
def proxyLoop (videoId : String) (languageCode : Option String) (now : Nat) :
    List ServiceAttempt → Option Transcript
  | [] => none
  | service :: rest =>
    match service with
    | .httpFail _ => proxyLoop videoId languageCode now rest
    | .threw _ => proxyLoop videoId languageCode now rest
    | .json data =>
      let segments := normalizeProxySegments data
      if segments.length = 0 then proxyLoop videoId languageCode now rest
      else
        let duration :=
          match segments.getLast? with
          | some lastSegment => lastSegment.end_
          | none => .num 0
        some { id := "transcript_" ++ videoId ++ "_" ++ toString now, videoId := videoId,
               title := normalizeProxyTitle videoId data, duration := duration,
               language := orElseStr languageCode "auto",
               segments := segments, createdAt := now, updatedAt := now }

/-- Function `fetchTranscriptViaProxy` from `route.ts`: try the services in
order; when all fail, return the sample transcript in a `development`
environment and throw otherwise. -/
def fetchTranscriptViaProxy (env videoId : String) (languageCode : Option String) (now : Nat)
    (services : List ServiceAttempt) : Except String Transcript :=
  match proxyLoop videoId languageCode now services with
  | some t => .ok t
  | none =>
    if env = "development" then .ok (generateSampleTranscript now videoId languageCode)
    else .error "字幕の取得に失敗しました。この動画には字幕が存在しないか、取得できない可能性があります。"

/-- Function `fetchYouTubeTranscript` from `route.ts`, over the awaited outcomes
of its approaches (in the source, `fetchViaCustomAPI`, then
`fetchTranscriptViaProxy`, then `fetchViaDirectScraping`): a thrown
approach is caught and skipped, a result with an empty segment list is
skipped, the first result with non-empty segments is returned; when all
approaches fail, the sample transcript in a `development` environment,
a thrown error otherwise. -/
def fetchYouTubeTranscript (env videoId : String) (languageCode : Option String) (now : Nat) :
    List (Except String Transcript) → Except String Transcript
  | [] =>
    if env = "development" then .ok (generateSampleTranscript now videoId languageCode)
    else .error "字幕の取得に失敗しました。この動画には字幕が存在しないか、取得できない可能性があります。"
  | approach :: rest =>
    match approach with
    | .ok result =>
      if result.segments.length > 0 then .ok result
      else fetchYouTubeTranscript env videoId languageCode now rest
    | .error _ => fetchYouTubeTranscript env videoId languageCode now rest

/-- Outcome of the POST handler, reduced to the shapes the claims talk
about: the 400 `INVALID_URL` response, a success body, or a 500 error
response. -/
inductive PostOutcome
  | invalidUrl
  | success (t : Transcript)
  | errorResp (code : String)
deriving DecidableEq, Repr, Inhabited

/-- Error classification of the POST catch block: timeout and
no-captions messages map to their codes, anything else to
`INTERNAL_ERROR`. -/
def classifyError (msg : String) : String :=
  if strIncludes msg "タイムアウト" then "TIMEOUT_ERROR"
  else if strIncludes msg "字幕が存在しない" then "NO_CAPTIONS"
  else "INTERNAL_ERROR"

/-- The POST handler from `route.ts` after request validation, with the
strategy chain abstracted as `chain : videoId → outcome` (it embodies
all network activity): a URL with no extractable id returns the
`INVALID_URL` response without consulting `chain`; otherwise the chain
outcome is returned, errors classified by the catch block. The timeout
race is folded into `chain`'s outcome message. -/
def handlePOST (url : String) (chain : String → Except String Transcript) : PostOutcome :=
  match extractVideoId url with
  | none => .invalidUrl
  | some videoId =>
    match chain videoId with
    | .ok t => .success t
    | .error msg => .errorResp (classifyError msg)

/-- The test the orchestrator loop applies to one awaited approach
outcome: a returned transcript with a non-empty segment list. -/
def approachHit : Except String Transcript → Bool
  | .ok t => !t.segments.isEmpty
  | .error _ => false

/-- A proxy service attempt that the service loop skips: a non-OK
status, a thrown error, or a payload normalizing to no segments. -/
def serviceDeclines : ServiceAttempt → Bool
  | .httpFail _ => true
  | .threw _ => true
  | .json data => (normalizeProxySegments data).isEmpty

/-- A one-track caption list for exercising the scraping strategy. -/
def scrapeDemoTracks : List CaptionTrack :=
  [⟨some "en", some "u", none⟩]

/-- A caption fetch returning one XML text node ending at 2.5 s. -/
def scrapeDemoFetch : String → String :=
  fun _ => "<text start=\"1.0\" dur=\"1.5\">Hi</text>"

/-- The transcript the scraping strategy produces on the demo inputs. -/
def scrapeDemoT : Transcript :=
  { id := "transcript_vid_3", videoId := "vid", title := "Video vid",
    duration := JV.num 3, language := "en",
    segments := [{ id := "1", start := JV.num 1, end_ := JV.num (mkRat 5 2),
                   text := JV.str "Hi" }],
    createdAt := 3, updatedAt := 3 }

/-- A proxy event record whose single segment ends at 2.5 s. -/
def proxyDemoItem : ProxyItem :=
  ⟨.num 1, .undef, .undef, .undef, .num (mkRat 5 2), .str "hi", .undef⟩

/-- The transcript the proxy strategy produces on the demo record. -/
def proxyDemoT : Transcript :=
  { id := "transcript_vid_0", videoId := "vid", title := "Video vid",
    duration := JV.num (mkRat 5 2), language := "auto",
    segments := [{ id := "1", start := JV.num 1, end_ := JV.num (mkRat 5 2),
                   text := JV.str "hi" }],
    createdAt := 0, updatedAt := 0 }

/-- A piped-API body with one subtitle track and a platform-reported
duration of 100 s. -/
def pipedDemo : PipedData :=
  ⟨some [⟨some "en", "u", false⟩], some "T", .num 100⟩

/-- A subtitle fetch returning one VTT cue ending at 2.5 s. -/
def vttDemoFetch : String → String :=
  fun _ => "WEBVTT\n\n00:00:01.000 --> 00:00:02.500\nHello\n\n"

/-- The transcript the custom-API strategy produces on the demo inputs:
its duration is the platform-reported 100, not the segment-derived
value. -/
def customDemoT : Transcript :=
  { id := "transcript_vid_3", videoId := "vid", title := "T",
    duration := JV.num 100, language := "en",
    segments := [{ id := "1", start := JV.num 1, end_ := JV.num (mkRat 5 2),
                   text := JV.str "Hello" }],
    createdAt := 3, updatedAt := 3 }

theorem dropLit_self (lit rest : List Char) : dropLit lit (lit ++ rest) = some rest := by
  induction lit with
  | nil => rfl
  | cons x xs ih => simp [dropLit, ih]

theorem scanCapture_hit (stop x : Char) (xs rest : List Char)
    (hcap : (rest.takeWhile (notStop stop)).isEmpty = false) :
    scanCapture stop (x :: xs) ((x :: xs) ++ rest) =
      some (String.mk (rest.takeWhile (notStop stop))) := by
  have hdrop : dropLit (x :: xs) ((x :: xs) ++ rest) = some rest := dropLit_self _ _
  rw [List.cons_append] at hdrop
  rw [List.cons_append, scanCapture, hdrop]
  simp [hcap]

/-- Claim C8 (confirmed): on the cue text
`WEBVTT\n\n00:00:01.000 --> 00:00:02.500\nHello\nWorld\n\n` the cue-text
parser returns exactly one segment with start 1, end 2.5, and text
`Hello World` (the two text lines joined with a single space, trimmed). -/
theorem parseVTT_c8_confirmed :
    parseVTT "WEBVTT\n\n00:00:01.000 --> 00:00:02.500\nHello\nWorld\n\n" =
      [{ id := "1", start := JV.num 1, end_ := JV.num (mkRat 5 2),
         text := JV.str "Hello World" }] := by
  decide

/-- Claim C1 (counterexample): the watch-pattern capture `[^&]+` does not
stop at `#`, so the extractor returns `abc#def` where the claim demands
truncation at the first `#`. -/
theorem extract_c1_counterexample :
    extractVideoId "https://www.youtube.com/watch?v=abc#def" = some "abc#def" ∧
    extractVideoId "https://www.youtube.com/watch?v=abc#def" ≠ some "abc" := by
  constructor
  · decide
  · decide

/-- Claim C1 (amended): the watch-page pattern truncates its capture only
at the first `&` (`?`, `#` and newline characters are kept), and the
short-link, embed and legacy patterns truncate only at the first `?`
(`&` and `#` are kept); the identifier of `https://youtu.be/abc123?t=5`
is still `abc123`. -/
theorem extract_c1_amended :
    (∀ rest : List Char, rest ≠ [] → rest.head? ≠ some '&' →
      extractVideoId (String.mk ("youtube.com/watch?v=".toList ++ rest)) =
        some (String.mk (rest.takeWhile (notStop '&')))) ∧
    extractVideoId "https://youtu.be/abc123?t=5" = some "abc123" ∧
    extractVideoId "https://www.youtube.com/watch?v=abc&x=1" = some "abc" ∧
    extractVideoId "https://youtu.be/ab&c#d?t=5" = some "ab&c#d" ∧
    extractVideoId "https://www.youtube.com/embed/abc&x#y?z" = some "abc&x#y" ∧
    extractVideoId "https://www.youtube.com/v/abc#a?b" = some "abc#a" := by
  refine ⟨?_, by decide, by decide, by decide, by decide, by decide⟩
  intro rest h1 h2
  have hcap : (rest.takeWhile (notStop '&')).isEmpty = false := by
    cases rest with
    | nil => exact absurd rfl h1
    | cons r rs =>
      have hr : r ≠ '&' := by
        intro hEq
        exact h2 (by simp [hEq])
      simp [List.takeWhile_cons, notStop, hr]
  have hscan := scanCapture_hit '&' 'y' "outube.com/watch?v=".toList rest hcap
  simp only [extractVideoId]
  have hmk : (String.mk ("youtube.com/watch?v=".toList ++ rest)).toList =
      "youtube.com/watch?v=".toList ++ rest := rfl
  rw [hmk]
  have hlit : "youtube.com/watch?v=".toList = 'y' :: "outube.com/watch?v=".toList := rfl
  rw [hlit]
  rw [hscan]

/-- Claim C7 (confirmed): when no identifier pattern matches, extraction
returns `none` rather than throwing, and the POST handler answers with
the `INVALID_URL` response without consulting the strategy chain (the
result is the same for every chain, so no network call is attempted). -/
theorem post_c7_confirmed (url : String)
    (chain chain2 : String → Except String Transcript)
    (h : extractVideoId url = none) :
    handlePOST url chain = .invalidUrl ∧ handlePOST url chain = handlePOST url chain2 := by
  unfold handlePOST
  rw [h]
  exact ⟨rfl, rfl⟩

/-- Witness for C7: a well-formed URL matching no identifier shape
yields the `INVALID_URL` response for two different chains. -/
theorem post_c7_confirmed_witness :
    handlePOST "https://example.com/video" (fun _ => .error "boom") = .invalidUrl ∧
    handlePOST "https://example.com/video" (fun _ => .error "boom") =
      handlePOST "https://example.com/video" (fun _ => .ok default) := by
  exact post_c7_confirmed "https://example.com/video" (fun _ => .error "boom")
    (fun _ => .ok default) (by decide)

/-- Witness for C1 (amended): the watch rule applied to the concrete
tail `ab&c` yields `ab`. -/
theorem extract_c1_amended_witness :
    extractVideoId (String.mk ("youtube.com/watch?v=".toList ++ "ab&c".toList)) =
      some (String.mk (("ab&c".toList).takeWhile (notStop '&'))) ∧
    String.mk (("ab&c".toList).takeWhile (notStop '&')) = "ab" := by
  exact ⟨extract_c1_amended.1 "ab&c".toList (by decide) (by decide), by decide⟩

/-- Claim C2 (counterexample): with an auto-generated exact-match track
listed before a manual exact-match track, selection returns the
auto-generated one in both strategies, although a non-auto exact match
exists. -/
theorem select_c2_counterexample :
    selectCaptionTrack [⟨some "en", some "u1", some "asr"⟩, ⟨some "en", some "u2", none⟩]
        (some "en") = ⟨some "en", some "u1", some "asr"⟩ ∧
    (⟨some "en", some "u1", some "asr"⟩ : CaptionTrack) ≠ ⟨some "en", some "u2", none⟩ ∧
    selectSubtitle [⟨some "en", "u1", true⟩, ⟨some "en", "u2", false⟩] (some "en") =
      ⟨some "en", "u1", true⟩ ∧
    (⟨some "en", "u1", true⟩ : PipedSub).autoGenerated = true := by
  exact ⟨by decide, by decide, by decide, by decide⟩

theorem find?_map_setKind (lc : String) (k : Option String) (tracks : List CaptionTrack) :
    (tracks.map (fun tr => { tr with kind := k })).find? (trackMatches lc) =
      (tracks.find? (trackMatches lc)).map (fun tr => { tr with kind := k }) := by
  induction tracks with
  | nil => rfl
  | cons t ts ih =>
    have hmatch : trackMatches lc { t with kind := k } = trackMatches lc t := by
      cases t
      rfl
    cases hm : trackMatches lc t with
    | true => simp [List.find?_cons, hmatch, hm]
    | false => simp [List.find?_cons, hmatch, hm, ih]

/-- Claim C2 (amended): within each strategy, selection ignores the
manual/auto kind entirely: it returns the first track whose language
code equals or starts with the supplied preference, and the first
listed track when none matches; in the spec's example the manual `en`
track is picked because it is listed first, not because it is manual. -/
theorem select_c2_amended :
    (∀ (tracks : List CaptionTrack) (lc : String) (t : CaptionTrack),
      tracks.find? (trackMatches lc) = some t →
        selectCaptionTrack tracks (some lc) = t ∧ trackMatches lc t = true) ∧
    (∀ (tracks : List CaptionTrack) (lc : String),
      tracks.find? (trackMatches lc) = none →
        selectCaptionTrack tracks (some lc) = tracks.headI) ∧
    (∀ (tracks : List CaptionTrack) (lc : String) (k : Option String),
      tracks ≠ [] →
        selectCaptionTrack (tracks.map (fun tr => { tr with kind := k })) (some lc) =
          { selectCaptionTrack tracks (some lc) with kind := k }) ∧
    (∀ (subs : List PipedSub) (lc : String) (s : PipedSub),
      subs.find? (subMatches lc) = some s →
        selectSubtitle subs (some lc) = s ∧ subMatches lc s = true) ∧
    selectCaptionTrack
      [⟨some "en", some "u1", none⟩, ⟨some "en", some "u2", some "asr"⟩,
       ⟨some "ja", some "u3", none⟩] (some "en") = ⟨some "en", some "u1", none⟩ := by
  refine ⟨?_, ?_, ?_, ?_, by decide⟩
  · intro tracks lc t h
    exact ⟨by simp [selectCaptionTrack, h], List.find?_some h⟩
  · intro tracks lc h
    simp [selectCaptionTrack, h]
  · intro tracks lc k hne
    have h1 : ∀ ts : List CaptionTrack, selectCaptionTrack ts (some lc) =
        match ts.find? (trackMatches lc) with
        | some t => t
        | none => ts.headI := fun ts => rfl
    rw [h1, h1, find?_map_setKind]
    cases hf : tracks.find? (trackMatches lc) with
    | some t => rfl
    | none =>
      cases tracks with
      | nil => exact absurd rfl hne
      | cons t ts => rfl
  · intro subs lc s h
    exact ⟨by simp [selectSubtitle, h], List.find?_some h⟩

/-- Witness for C2 (amended): the first language match is returned even
when it is listed second. -/
theorem select_c2_amended_witness :
    selectCaptionTrack [⟨some "ja", some "u0", none⟩, ⟨some "en", some "u1", some "asr"⟩]
        (some "en") = ⟨some "en", some "u1", some "asr"⟩ := by
  exact (select_c2_amended.1 _ "en" _ (by decide)).1

theorem fetch_error_cons (env v : String) (l : Option String) (now : Nat) (msg : String)
    (rest : List (Except String Transcript)) :
    fetchYouTubeTranscript env v l now (.error msg :: rest) =
      fetchYouTubeTranscript env v l now rest := rfl

theorem fetch_empty_cons (env v : String) (l : Option String) (now : Nat) (t : Transcript)
    (rest : List (Except String Transcript)) (h : t.segments.length = 0) :
    fetchYouTubeTranscript env v l now (.ok t :: rest) =
      fetchYouTubeTranscript env v l now rest := by
  simp [fetchYouTubeTranscript, h]

theorem fetch_first_hit (env v : String) (l : Option String) (now : Nat) :
    ∀ (approaches : List (Except String Transcript)) (r : Except String Transcript),
      approaches.find? approachHit = some r →
      fetchYouTubeTranscript env v l now approaches = r := by
  intro approaches
  induction approaches with
  | nil => intro r h; simp at h
  | cons a rest ih =>
    intro r h
    cases ha : approachHit a with
    | true =>
      rw [List.find?_cons_of_pos _ ha] at h
      cases a with
      | error msg => simp [approachHit] at ha
      | ok t =>
        have hne : t.segments.isEmpty = false := by
          simpa [approachHit] using ha
        have hlen : t.segments.length > 0 := by
          cases hseg : t.segments with
          | nil => rw [hseg] at hne; simp at hne
          | cons s ss => simp [hseg]
        cases h
        simp [fetchYouTubeTranscript, hlen]
    | false =>
      rw [List.find?_cons_of_neg _ (by simp [ha])] at h
      cases a with
      | error msg => rw [fetch_error_cons]; exact ih r h
      | ok t =>
        have hlen : t.segments.length = 0 := by
          have : t.segments.isEmpty = true := by simpa [approachHit] using ha
          simpa [List.isEmpty_iff, List.length_eq_zero] using this
        rw [fetch_empty_cons _ _ _ _ _ _ hlen]
        exact ih r h

/-- Claim C3 (confirmed): a strategy-level failure never escapes the
orchestrator loop: a thrown approach and an approach returning an empty
segment list are both skipped, the loop moving to the next approach in
the list order, and the first approach producing a transcript with a
non-empty segment list is the returned result. -/
theorem orchestrator_c3_confirmed (env v : String) (l : Option String) (now : Nat)
    (msg : String) (t : Transcript) (rest : List (Except String Transcript))
    (approaches : List (Except String Transcript)) (r : Except String Transcript)
    (hempty : t.segments.length = 0) (hfind : approaches.find? approachHit = some r) :
    fetchYouTubeTranscript env v l now (.error msg :: rest) =
      fetchYouTubeTranscript env v l now rest ∧
    fetchYouTubeTranscript env v l now (.ok t :: rest) =
      fetchYouTubeTranscript env v l now rest ∧
    fetchYouTubeTranscript env v l now approaches = r := by
  exact ⟨fetch_error_cons env v l now msg rest,
    fetch_empty_cons env v l now t rest hempty,
    fetch_first_hit env v l now approaches r hfind⟩

/-- Witness for C3: a thrown first approach is skipped and the second
approach's non-empty transcript is returned, on concrete inputs. -/
theorem orchestrator_c3_confirmed_witness :
    fetchYouTubeTranscript "production" "vid" none 0
        [Except.error "boom",
         Except.ok (generateSampleTranscript 0 "vid" none),
         Except.error "later"] =
      Except.ok (generateSampleTranscript 0 "vid" none) := by
  exact (orchestrator_c3_confirmed "production" "vid" none 0 "boom"
    { id := "x", videoId := "vid", title := "t", duration := .num 0, language := "en",
      segments := [], createdAt := 0, updatedAt := 0 } []
    [Except.error "boom",
     Except.ok (generateSampleTranscript 0 "vid" none),
     Except.error "later"]
    (Except.ok (generateSampleTranscript 0 "vid" none)) (by decide) (by rfl)).2.2

theorem generateSample_segments_length (now : Nat) (v : String) (l : Option String) :
    (generateSampleTranscript now v l).segments.length = 5 := by
  simp only [generateSampleTranscript]
  split <;> rfl

theorem generateSample_duration (now : Nat) (v : String) (l : Option String) :
    (generateSampleTranscript now v l).duration = .num 17 := rfl

theorem fetch_declines (env v : String) (l : Option String) (now : Nat) :
    ∀ approaches : List (Except String Transcript),
      (∀ r ∈ approaches, approachHit r = false) →
      fetchYouTubeTranscript env v l now approaches =
        fetchYouTubeTranscript env v l now [] := by
  intro approaches h
  induction approaches with
  | nil => rfl
  | cons a rest ih =>
    have ha : approachHit a = false := h a (by simp)
    have hrest : ∀ r ∈ rest, approachHit r = false := fun r hr => h r (by simp [hr])
    cases a with
    | error msg => rw [fetch_error_cons]; exact ih hrest
    | ok t =>
      have hlen : t.segments.length = 0 := by
        have hempty : t.segments.isEmpty = true := by simpa [approachHit] using ha
        simpa [List.isEmpty_iff, List.length_eq_zero] using hempty
      rw [fetch_empty_cons _ _ _ _ _ _ hlen]
      exact ih hrest

/-- Claim C4 (counterexample): with the non-production environment
`test` and every approach declining, the orchestrator throws the
no-captions error instead of returning the placeholder transcript that
the claim promises for every non-production context. -/
theorem orchestrator_c4_counterexample :
    fetchYouTubeTranscript "test" "abc" none 0 [.error "a", .error "b", .error "c"] =
      .error "字幕の取得に失敗しました。この動画には字幕が存在しないか、取得できない可能性があります。" ∧
    ("test" : String) ≠ "production" ∧
    fetchYouTubeTranscript "test" "abc" none 0 [.error "a", .error "b", .error "c"] ≠
      .ok (generateSampleTranscript 0 "abc" none) := by
  refine ⟨rfl, by decide, ?_⟩
  intro h
  simp [fetchYouTubeTranscript] at h

/-- Claim C4 (amended): when every approach declines, the orchestrator
returns the fixed placeholder (duration 17, five segments) exactly when
the environment string is `development`; in every other environment —
production, but also other non-production contexts such as `test` — it
throws the no-captions error and never returns a placeholder. -/
theorem orchestrator_c4_amended (v : String) (l : Option String) (now : Nat)
    (approaches : List (Except String Transcript))
    (hdecl : ∀ r ∈ approaches, approachHit r = false) :
    (∀ env, env ≠ "development" →
      fetchYouTubeTranscript env v l now approaches =
        .error "字幕の取得に失敗しました。この動画には字幕が存在しないか、取得できない可能性があります。") ∧
    fetchYouTubeTranscript "development" v l now approaches =
      .ok (generateSampleTranscript now v l) ∧
    (generateSampleTranscript now v l).duration = .num 17 ∧
    (generateSampleTranscript now v l).segments.length = 5 := by
  refine ⟨?_, ?_, generateSample_duration now v l, generateSample_segments_length now v l⟩
  · intro env henv
    rw [fetch_declines env v l now approaches hdecl]
    simp [fetchYouTubeTranscript, henv]
  · rw [fetch_declines "development" v l now approaches hdecl]
    simp [fetchYouTubeTranscript]

/-- Witness for C4 (amended): with one declined approach, production
yields the error and development the placeholder. -/
theorem orchestrator_c4_amended_witness :
    fetchYouTubeTranscript "production" "abc" none 0 [.error "x"] =
      .error "字幕の取得に失敗しました。この動画には字幕が存在しないか、取得できない可能性があります。" ∧
    fetchYouTubeTranscript "development" "abc" none 0 [.error "x"] =
      .ok (generateSampleTranscript 0 "abc" none) := by
  have h := orchestrator_c4_amended "abc" none 0 [.error "x"] (by decide)
  exact ⟨h.1 "production" (by decide), h.2.1⟩

theorem proxyLoop_declines (v : String) (l : Option String) (now : Nat) :
    ∀ services : List ServiceAttempt,
      (∀ s ∈ services, serviceDeclines s = true) →
      proxyLoop v l now services = none := by
  intro services h
  induction services with
  | nil => rfl
  | cons s rest ih =>
    have hs : serviceDeclines s = true := h s (by simp)
    have hrest : ∀ r ∈ rest, serviceDeclines r = true := fun r hr => h r (by simp [hr])
    cases s with
    | httpFail status => rw [proxyLoop]; exact ih hrest
    | threw msg => rw [proxyLoop]; exact ih hrest
    | json data =>
      have hlen : (normalizeProxySegments data).length = 0 := by
        have : (normalizeProxySegments data).isEmpty = true := by
          simpa [serviceDeclines] using hs
        simpa [List.isEmpty_iff, List.length_eq_zero] using this
      simp only [proxyLoop, hlen]
      exact ih hrest

/-- Claim C9 (confirmed): in a `development` environment, when every
proxy service fails, the proxy strategy itself returns the placeholder
transcript rather than declining; composed with a failed first
approach, the orchestrator therefore returns the placeholder whatever
the scraping approach would have produced — the placeholder can appear
mid-chain, before the chain is exhausted. -/
theorem proxy_c9_confirmed (v : String) (l : Option String) (now : Nat)
    (services : List ServiceAttempt) (msg : String) (r3 : Except String Transcript)
    (hfail : ∀ s ∈ services, serviceDeclines s = true) :
    fetchTranscriptViaProxy "development" v l now services =
      .ok (generateSampleTranscript now v l) ∧
    fetchYouTubeTranscript "development" v l now
        [.error msg, fetchTranscriptViaProxy "development" v l now services, r3] =
      .ok (generateSampleTranscript now v l) := by
  have hproxy : fetchTranscriptViaProxy "development" v l now services =
      .ok (generateSampleTranscript now v l) := by
    rw [fetchTranscriptViaProxy, proxyLoop_declines v l now services hfail]
    rfl
  refine ⟨hproxy, ?_⟩
  rw [fetch_error_cons, hproxy]
  have hpos : (generateSampleTranscript now v l).segments.length > 0 := by
    rw [generateSample_segments_length]
    decide
  simp [fetchYouTubeTranscript, hpos]

/-- Witness for C9: with both proxy services failing concretely, the
development-mode proxy strategy hands back the placeholder and the
orchestrator returns it while the third approach is an untouched
error. -/
theorem proxy_c9_confirmed_witness :
    fetchTranscriptViaProxy "development" "vid" none 7 [.httpFail 500, .threw "x"] =
      .ok (generateSampleTranscript 7 "vid" none) ∧
    fetchYouTubeTranscript "development" "vid" none 7
        [.error "err", fetchTranscriptViaProxy "development" "vid" none 7
          [.httpFail 500, .threw "x"], .error "never"] =
      .ok (generateSampleTranscript 7 "vid" none) := by
  exact proxy_c9_confirmed "vid" none 7 [.httpFail 500, .threw "x"] "err" (.error "never")
    (by decide)

/-- Claim C10 (confirmed): the shared proxy normalization coalesces with
JavaScript truthiness, so a `start` field that is the number 0 falls
through to a non-zero `offset` field: the normalized segment starts at
the `offset` value, not at 0. The same normalization is what the
array-of-events and `transcript`-field branches apply to each record. -/
theorem proxy_c10_confirmed (item : ProxyItem) (i : Nat) (q : Rat)
    (hstart : item.start = .num 0) (hoff : item.offset = .num q) (hq : q ≠ 0) :
    (normalizeItem item i).start = .num q ∧
    normalizeProxySegments (.arr [item]) = [normalizeItem item 0] ∧
    normalizeProxySegments (.obj (some [item]) none none) = [normalizeItem item 0] := by
  refine ⟨?_, ?_, ?_⟩
  · simp only [normalizeItem, hstart, hoff]
    have h0 : (JV.num 0).truthy = false := by decide
    have hqt : (JV.num q).truthy = true := by simp [JV.truthy, hq]
    simp [jvOr, h0, hqt, jsParseFloatJV]
  · rfl
  · rfl

/-- Witness for C10: a record with `start` 0 and `offset` 7/2 normalizes
to a segment starting at 7/2. -/
theorem proxy_c10_confirmed_witness :
    (normalizeItem ⟨.num 0, .num (mkRat 7 2), .undef, .undef, .undef, .str "t", .undef⟩ 0).start =
      .num (mkRat 7 2) := by
  exact (proxy_c10_confirmed ⟨.num 0, .num (mkRat 7 2), .undef, .undef, .undef, .str "t", .undef⟩
    0 (mkRat 7 2) rfl rfl (by decide)).1

theorem parseVTTLoop_text :
    ∀ (fuel : Nat) (lines : List String) (index : Nat) (seg : Segment),
      seg ∈ parseVTTLoop fuel lines index →
      ∃ raw : String, seg.text = .str (strTrim raw) ∧ strTrim raw ≠ "" := by
  intro fuel
  induction fuel with
  | zero => intro lines index seg h; simp [parseVTTLoop] at h
  | succ n ih =>
    intro lines index seg h
    cases lines with
    | nil => simp [parseVTTLoop] at h
    | cons line rest =>
      simp only [parseVTTLoop] at h
      split at h
      · split at h
        · rename_i htext
          rcases List.mem_cons.mp h with hEq | hMem
          · subst hEq
            exact ⟨_, rfl, htext⟩
          · exact ih _ _ _ hMem
        · exact ih _ _ _ h
      · exact ih _ _ _ h

/-- Claim C6 (counterexample): the timed-markup parser has no
empty-after-trim filter: a whitespace-only text node is emitted as a
segment whose text is the empty string rather than being dropped. -/
theorem parsers_c6_counterexample :
    parseTranscriptXML "<text start=\"1.0\" dur=\"2.0\"> </text>" =
      [{ id := "1", start := JV.num 1, end_ := JV.num 3, text := JV.str "" }] := by
  decide

/-- Claim C6 (amended): of the two caption parsers in the source, only
the cue-text parser drops segments whose trimmed text is empty — each
of its segments carries a non-empty trimmed text; the timed-markup
parser emits a whitespace-only text node as a segment with empty
text. -/
theorem parsers_c6_amended :
    (∀ (vtt : String) (seg : Segment), seg ∈ parseVTT vtt →
      ∃ raw : String, seg.text = .str (strTrim raw) ∧ strTrim raw ≠ "") ∧
    parseTranscriptXML "<text start=\"1.5\" dur=\"1.0\">\n</text>" =
      [{ id := "1", start := JV.num (mkRat 3 2), end_ := JV.num (mkRat 5 2),
         text := JV.str "" }] := by
  refine ⟨?_, by decide⟩
  intro vtt seg h
  exact parseVTTLoop_text _ _ _ seg h

/-- Witness for C6 (amended): the `Hello World` segment produced by the
cue-text parser has a non-empty text. -/
theorem parsers_c6_amended_witness :
    ({ id := "1", start := JV.num 1, end_ := JV.num (mkRat 5 2),
       text := JV.str "Hello World" } : Segment).text ≠ JV.str "" := by
  obtain ⟨raw, h1, h2⟩ := parsers_c6_amended.1
    "WEBVTT\n\n00:00:01.000 --> 00:00:02.500\nHello\nWorld\n\n"
    { id := "1", start := JV.num 1, end_ := JV.num (mkRat 5 2), text := JV.str "Hello World" }
    (by decide)
  intro hc
  rw [h1] at hc
  exact h2 (by injection hc)

theorem generateSample_last (now : Nat) (v : String) (l : Option String) :
    ∃ s, (generateSampleTranscript now v l).segments.getLast? = some s ∧
      (generateSampleTranscript now v l).duration = s.end_ := by
  simp only [generateSampleTranscript]
  split
  · exact ⟨_, rfl, rfl⟩
  · exact ⟨_, rfl, rfl⟩

theorem proxyLoop_ok (v : String) (l : Option String) (now : Nat) :
    ∀ (services : List ServiceAttempt) (t : Transcript),
      proxyLoop v l now services = some t →
      ∃ s, t.segments.getLast? = some s ∧ t.duration = s.end_ := by
  intro services
  induction services with
  | nil => intro t h; simp [proxyLoop] at h
  | cons sv rest ih =>
    intro t h
    cases sv with
    | httpFail status => rw [proxyLoop] at h; exact ih t h
    | threw m => rw [proxyLoop] at h; exact ih t h
    | json data =>
      simp only [proxyLoop] at h
      split at h
      · exact ih t h
      · rename_i hlen
        have ht := Option.some.inj h
        have hne : normalizeProxySegments data ≠ [] := by
          intro hnil
          exact hlen (by rw [hnil]; rfl)
        obtain ⟨s, hs⟩ := Option.isSome_iff_exists.mp (List.getLast?_isSome.mpr hne)
        refine ⟨s, ?_, ?_⟩
        · rw [← ht]
          exact hs
        · rw [← ht]
          simp only
          rw [hs]

/-- Claim C5 (counterexample): a successful proxy acquisition whose
single segment ends at 2.5 s is stamped with duration 2.5, not the
ceiling 3 that the claim requires of every successful acquisition. -/
theorem duration_c5_counterexample :
    fetchTranscriptViaProxy "production" "vid" none 0 [.json (.arr [proxyDemoItem])] =
      .ok proxyDemoT ∧
    proxyDemoT.duration = JV.num (mkRat 5 2) ∧
    proxyDemoT.segments.getLast? =
      some { id := "1", start := JV.num 1, end_ := JV.num (mkRat 5 2), text := JV.str "hi" } ∧
    mathCeil (JV.num (mkRat 5 2)) = JV.num 3 ∧
    proxyDemoT.duration ≠ mathCeil (JV.num (mkRat 5 2)) := by
  exact ⟨rfl, rfl, rfl, by decide, by decide⟩

/-- Claim C5 (amended): only the direct-scraping strategy stamps
`duration` as the ceiling of the final segment's `end`; the proxy
strategy stamps the final segment's `end` without rounding (the
development placeholder included); and the custom-API strategy always
uses the platform-reported length (defaulting to 0), even when segments
exist. -/
theorem duration_c5_amended :
    (∀ (v : String) (l : Option String) (now : Nat)
        (tracksFound : Option (List CaptionTrack)) (titleMatch : Option String)
        (fetchCaption : String → String) (t : Transcript),
      fetchViaDirectScraping v l now tracksFound titleMatch fetchCaption = .ok t →
      ∃ s, t.segments.getLast? = some s ∧ t.duration = mathCeil s.end_) ∧
    (∀ (env v : String) (l : Option String) (now : Nat) (services : List ServiceAttempt)
        (t : Transcript),
      fetchTranscriptViaProxy env v l now services = .ok t →
      ∃ s, t.segments.getLast? = some s ∧ t.duration = s.end_) ∧
    (∀ (v : String) (l : Option String) (now : Nat) (responseOk : Bool) (data : PipedData)
        (fetchSub : String → String) (t : Transcript),
      fetchViaCustomAPI v l now responseOk data fetchSub = .ok t →
      t.duration = jvOr data.duration (.num 0)) := by
  refine ⟨?_, ?_, ?_⟩
  · intro v l now tracksFound titleMatch fetchCaption t h
    simp only [fetchViaDirectScraping] at h
    split at h
    · exact absurd h (by simp)
    · split at h
      · exact absurd h (by simp)
      · split at h
        · exact absurd h (by simp)
        · split at h
          · exact absurd h (by simp)
          · rename_i hlen
            have ht := Except.ok.inj h
            subst ht
            rw [List.length_eq_zero] at hlen
            obtain ⟨s, hs⟩ := Option.isSome_iff_exists.mp (List.getLast?_isSome.mpr hlen)
            refine ⟨s, hs, ?_⟩
            simp only [hs]
  · intro env v l now services t h
    simp only [fetchTranscriptViaProxy] at h
    split at h
    · rename_i t' hloop
      have := Except.ok.inj h
      subst this
      exact proxyLoop_ok v l now services t' hloop
    · split at h
      · have := Except.ok.inj h
        subst this
        exact generateSample_last now v l
      · exact absurd h (by simp)
  · intro v l now responseOk data fetchSub t h
    simp only [fetchViaCustomAPI] at h
    split at h
    · exact absurd h (by simp)
    · split at h
      · exact absurd h (by simp)
      · split at h
        · exact absurd h (by simp)
        · have := Except.ok.inj h
          subst this
          rfl

/-- Witness for C5 (amended): the three strategies on concrete
successful runs — scraping stamps ceil(2.5) = 3, the proxy stamps 2.5
unrounded, and the custom API stamps the platform-reported 100. -/
theorem duration_c5_amended_witness :
    (fetchViaDirectScraping "vid" none 3 (some scrapeDemoTracks) none scrapeDemoFetch =
      .ok scrapeDemoT ∧
      ∃ s, scrapeDemoT.segments.getLast? = some s ∧ scrapeDemoT.duration = mathCeil s.end_) ∧
    (fetchTranscriptViaProxy "production" "vid" none 0 [.json (.arr [proxyDemoItem])] =
      .ok proxyDemoT ∧
      ∃ s, proxyDemoT.segments.getLast? = some s ∧ proxyDemoT.duration = s.end_) ∧
    (fetchViaCustomAPI "vid" (some "en") 3 true pipedDemo vttDemoFetch = .ok customDemoT ∧
      customDemoT.duration = jvOr pipedDemo.duration (.num 0)) := by
  have h1 : fetchViaDirectScraping "vid" none 3 (some scrapeDemoTracks) none scrapeDemoFetch =
      .ok scrapeDemoT := by rfl
  have h2 : fetchTranscriptViaProxy "production" "vid" none 0 [.json (.arr [proxyDemoItem])] =
      .ok proxyDemoT := by rfl
  have h3 : fetchViaCustomAPI "vid" (some "en") 3 true pipedDemo vttDemoFetch =
      .ok customDemoT := by rfl
  exact ⟨⟨h1, duration_c5_amended.1 "vid" none 3 (some scrapeDemoTracks) none scrapeDemoFetch
      scrapeDemoT h1⟩,
    ⟨h2, duration_c5_amended.2.1 "production" "vid" none 0 [.json (.arr [proxyDemoItem])]
      proxyDemoT h2⟩,
    ⟨h3, duration_c5_amended.2.2 "vid" (some "en") 3 true pipedDemo vttDemoFetch
      customDemoT h3⟩⟩
